import Mathlib

/-!
Verification of the simulation core of the `kimkichan-1/portfolio` 3D
portfolio application.

Part I embeds `src/useKeyboardControls.js` (the input snapshot provider):
the `keyActionMap` lookup table, the `handleKeyDown` / `handleKeyUp`
listeners, and the initial controls record.  Key strings are modelled as
`List Char`; `keyToLower` models JavaScript's `toLowerCase()` on the ASCII
range in which all key names of interest live.

Part II models the frame-driven simulation core (state machine, portal
evaluator, vehicle controller, character speed selection, camera tracker).
That code lives in the repository's `App.js`, which is not part of the
available sources (only its documentation is), so those definitions are
modelled from the specification and are marked as such.
-/

namespace Portfolio

/-- ASCII lower-casing of one character, as JavaScript's `toLowerCase()`
acts on the key names handled by the listeners. -/
def charToLower (ch : Char) : Char :=
  if 'A' ≤ ch ∧ ch ≤ 'Z' then Char.ofNat (ch.toNat + 32) else ch

/-- Lower-casing of a whole key string (`e.key.toLowerCase()`). -/
def keyToLower (s : List Char) : List Char := s.map charToLower

/-- The controls record created by `useState` in `useKeyboardControls.js`:
boolean flags `forward`, `backward`, `left`, `right`, `shift`, `log`, `e`. -/
structure Controls where
  forward : Bool
  backward : Bool
  left : Bool
  right : Bool
  shift : Bool
  log : Bool
  e : Bool
deriving DecidableEq, Repr

/-- The initial state passed to `useState`: every flag `false`. -/
def initialControls : Controls :=
  { forward := false, backward := false, left := false, right := false,
    shift := false, log := false, e := false }

/-- One flag position of the controls record. -/
inductive Flag where
  | forward | backward | left | right | shift | log | e
deriving DecidableEq, Repr

/-- Read one flag of a controls record. -/
def getFlag : Flag → Controls → Bool
  | .forward, c => c.forward
  | .backward, c => c.backward
  | .left, c => c.left
  | .right, c => c.right
  | .shift, c => c.shift
  | .log, c => c.log
  | .e, c => c.e

/-- Write one flag of a controls record, leaving the others unchanged
(the spread update `{ ...c, [action]: b }`). -/
def setFlag : Flag → Bool → Controls → Controls
  | .forward, b, c => { c with forward := b }
  | .backward, b, c => { c with backward := b }
  | .left, b, c => { c with left := b }
  | .right, b, c => { c with right := b }
  | .shift, b, c => { c with shift := b }
  | .log, b, c => { c with log := b }
  | .e, b, c => { c with e := b }

/-- `keyActionMap` of `useKeyboardControls.js`:
`{ w: forward, s: backward, a: left, d: right, e: e }`. -/
def keyActionMap (key : List Char) : Option Flag :=
  if key = ['w'] then some .forward
  else if key = ['s'] then some .backward
  else if key = ['a'] then some .left
  else if key = ['d'] then some .right
  else if key = ['e'] then some .e
  else none

/-- `handleKeyDown`: lower-case the key; `shift` sets the `shift` flag,
`c` sets the `log` flag, and a hit in `keyActionMap` sets that action's
flag to `true`. -/
def handleKeyDown (rawKey : List Char) (c : Controls) : Controls :=
  let key := keyToLower rawKey
  let c1 := if key = ['s', 'h', 'i', 'f', 't'] then { c with shift := true } else c
  let c2 := if key = ['c'] then { c1 with log := true } else c1
  match keyActionMap key with
  | some a => setFlag a true c2
  | none => c2

/-- `handleKeyUp`: identical to `handleKeyDown` with `false` written in
place of `true`. -/
def handleKeyUp (rawKey : List Char) (c : Controls) : Controls :=
  let key := keyToLower rawKey
  let c1 := if key = ['s', 'h', 'i', 'f', 't'] then { c with shift := false } else c
  let c2 := if key = ['c'] then { c1 with log := false } else c1
  match keyActionMap key with
  | some a => setFlag a false c2
  | none => c2

/-- A raw keyboard event: key-down or key-up carrying the event's key. -/
inductive KeyEvent where
  | down (key : List Char)
  | up (key : List Char)
deriving DecidableEq, Repr

/-- Apply one keyboard event to the controls record. -/
def stepControls (c : Controls) (ev : KeyEvent) : Controls :=
  match ev with
  | .down k => handleKeyDown k c
  | .up k => handleKeyUp k c

/-- The controls record after a sequence of keyboard events, starting from
the `useState` initial value. -/
def runControls (evs : List KeyEvent) : Controls :=
  evs.foldl stepControls initialControls

/-- The flag (if any) that a raw key governs: `shift` and `c` through the
two explicit conditionals, `w`/`s`/`a`/`d`/`e` through `keyActionMap`;
the key is lower-cased first, as both listeners do. -/
def keyFlagOf (rawKey : List Char) : Option Flag :=
  let key := keyToLower rawKey
  if key = ['s', 'h', 'i', 'f', 't'] then some .shift
  else if key = ['c'] then some .log
  else keyActionMap key

/-! Part II: the frame-driven simulation core.  The code implementing it is
`App.js`, which is not among the available sources (only the repository's
documentation of it is), so the following definitions are modelled from the
specification. -/

/-- Modelled from the spec: the closed enumeration of game modes owned by the
level/transition state machine (App.js, not among the available sources).
The constructor names follow the repository documentation; the spec calls the
same five states OnFootLevel1, TransitioningToLevel2, OnFootOrDrivingLevel2,
TransitioningToLevel3, OnFootLevel3. -/
inductive GameMode where
  | playing_level1
  | entering_portal
  | playing_level2
  | entering_portal_level3
  | playing_level3
deriving DecidableEq, Repr

/-- Modelled from the spec: the Transitioning* modes. -/
def isTransitioning : GameMode → Bool
  | .entering_portal => true
  | .entering_portal_level3 => true
  | _ => false

/-- Modelled from the spec: the configured transition duration; the exact
value is not given by the spec and none of the proofs depends on it. -/
def transitionDuration : ℚ := 2

/-- Modelled from the spec: the Transitioning* mode the machine enters when a
transition toward the given steady target mode is accepted. -/
def transitioningModeFor : GameMode → GameMode
  | .playing_level3 => .entering_portal_level3
  | _ => .entering_portal

/-- Modelled from the spec: the state of the level/transition state machine —
current mode, the in-flight transition's target mode, and its remaining
timer. -/
structure MachineState where
  mode : GameMode
  transTarget : Option GameMode
  transTimer : ℚ
deriving DecidableEq, Repr

/-- Modelled from the spec: `requestTransition(targetMode)` (App.js, not among
the available sources).  A request is accepted only in a non-transitioning
mode, in which case the machine enters the corresponding Transitioning* mode,
records the target and starts the transition timer; a request arriving while a
transition is already active is discarded. -/
def requestTransition (targetMode : GameMode) (s : MachineState) : MachineState :=
  if isTransitioning s.mode then s
  else { mode := transitioningModeFor targetMode,
         transTarget := some targetMode,
         transTimer := transitionDuration }

/-- A 3D vector with rational coordinates. -/
structure Vec3 where
  x : ℚ
  y : ℚ
  z : ℚ
deriving DecidableEq, Repr

/-- Componentwise vector sum. -/
def Vec3.add (a b : Vec3) : Vec3 := ⟨a.x + b.x, a.y + b.y, a.z + b.z⟩

/-- Componentwise vector difference. -/
def Vec3.sub (a b : Vec3) : Vec3 := ⟨a.x - b.x, a.y - b.y, a.z - b.z⟩

/-- Scalar multiple of a vector. -/
def Vec3.smul (t : ℚ) (a : Vec3) : Vec3 := ⟨t * a.x, t * a.y, t * a.z⟩

/-- Squared Euclidean distance; comparing it with the squared radius renders
the strict comparison `distanceTo(p) < r` without leaving the rationals. -/
def distSq (a b : Vec3) : ℚ :=
  (a.x - b.x) * (a.x - b.x) + (a.y - b.y) * (a.y - b.y) + (a.z - b.z) * (a.z - b.z)

/-- Modelled from the spec: an immutable portal record — position, trigger
radius and the mode the portal leads to. -/
structure Portal where
  position : Vec3
  triggerRadius : ℚ
  targetMode : GameMode
deriving DecidableEq, Repr

/-- Modelled from the spec: the per-portal check of the portal trigger
evaluator (App.js useFrame, not among the available sources) — when the
controlled entity is strictly within the trigger radius and the machine is not
already transitioning, submit a transition request toward the portal's target
mode. -/
def portalCheck (pos : Vec3) (s : MachineState) (p : Portal) : MachineState :=
  if distSq pos p.position < p.triggerRadius * p.triggerRadius ∧
      isTransitioning s.mode = false then
    requestTransition p.targetMode s
  else s

/-- Modelled from the spec: the per-frame portal evaluation visits the portals
registered to the current mode in registration order. -/
def portalFrame (portals : List Portal) (pos : Vec3) (s : MachineState) : MachineState :=
  portals.foldl (portalCheck pos) s

/-- The first portal in registration order whose trigger condition holds. -/
def firstTriggeredPortal (pos : Vec3) (portals : List Portal) : Option Portal :=
  portals.find? fun p => decide (distSq pos p.position < p.triggerRadius * p.triggerRadius)

/-- Modelled from the spec: maximum vehicle speed (~0.3 units). -/
def speedMax : ℚ := 3 / 10

/-- Modelled from the spec: maximum steering angle (0.5 radians). -/
def steeringMax : ℚ := 1 / 2

/-- Modelled from the spec: fixed rate at which the steering angle approaches
its target; the exact coefficient is left open by the spec. -/
def steeringRate : ℚ := 2

/-- Modelled from the spec: fixed rate at which speed approaches its target
while accelerating or braking; the exact coefficient is left open by the
spec. -/
def accelRate : ℚ := 1

/-- Modelled from the spec: fixed rate at which speed decays toward zero under
friction; the exact coefficient is left open by the spec. -/
def frictionRate : ℚ := 1 / 2

/-- Clamp `x` into the interval from `lo` to `hi`. -/
def clampQ (lo hi x : ℚ) : ℚ := max lo (min hi x)

/-- Move `current` toward `target` changing it by at most `step`
(rate-limited approach, reaching the target once within `step` of it). -/
def moveToward (current target step : ℚ) : ℚ :=
  clampQ (current - step) (current + step) target

/-- Modelled from the spec: the speed/steering state of the vehicle controller
(App.js RaceFuture, not among the available sources).  Position and heading
integrate *from* these two fields through the kinematic bicycle model and
never feed back into them, so the claimed bounds concern exactly this
state. -/
structure VehicleDrive where
  currentSpeed : ℚ
  steeringAngle : ℚ
deriving DecidableEq, Repr

/-- Modelled from the spec: the steering target derived from the left/right
flags. -/
def steerTarget (c : Controls) : ℚ :=
  if c.left then steeringMax else if c.right then -steeringMax else 0

/-- Modelled from the spec: the speed target — speedMax while forward is held,
-speedMax/2 (reverse) while backward is held, zero otherwise (friction
decay). -/
def speedTarget (c : Controls) : ℚ :=
  if c.forward then speedMax else if c.backward then -(speedMax / 2) else 0

/-- Modelled from the spec: one per-frame update of the vehicle's speed and
steering while occupied — steering moves toward its flag-derived target at a
fixed rate and is clamped to [-steeringMax, steeringMax]; speed is
rate-limited toward its target, never changed instantaneously. -/
def vehicleDriveStep (c : Controls) (dt : ℚ) (v : VehicleDrive) : VehicleDrive :=
  { currentSpeed :=
      moveToward v.currentSpeed (speedTarget c)
        ((if c.forward || c.backward then accelRate else frictionRate) * dt),
    steeringAngle :=
      clampQ (-steeringMax) steeringMax
        (moveToward v.steeringAngle (steerTarget c) (steeringRate * dt)) }

/-- Modelled from the spec: the vehicle at rest. -/
def vehicleInit : VehicleDrive := { currentSpeed := 0, steeringAngle := 0 }

/-- The vehicle state after a sequence of frames, each frame an input snapshot
and an elapsed time. -/
def runVehicle (frames : List (Controls × ℚ)) : VehicleDrive :=
  frames.foldl (fun v f => vehicleDriveStep f.1 f.2 v) vehicleInit

/-- The bounds the vehicle state maintains: speed between -speedMax/2 and
speedMax, steering between -steeringMax and steeringMax. -/
def VehicleDriveInv (v : VehicleDrive) : Prop :=
  -(speedMax / 2) ≤ v.currentSpeed ∧ v.currentSpeed ≤ speedMax ∧
    -steeringMax ≤ v.steeringAngle ∧ v.steeringAngle ≤ steeringMax

/-- An input snapshot holding only the backward flag. -/
def backwardInput : Controls := { initialControls with backward := true }

/-- Modelled from the spec: walking speed (~0.1 units per frame-equivalent). -/
def walkSpeed : ℚ := 1 / 10

/-- Modelled from the spec: running speed (~0.2 units per frame-equivalent). -/
def runSpeed : ℚ := 1 / 5

/-- Modelled from the spec: whether any movement flag is set. -/
def anyMoveFlag (c : Controls) : Bool :=
  c.forward || c.backward || c.left || c.right

/-- Modelled from the spec: the (unnormalized) planar movement direction
derived from the flags — x from right minus left, z from backward minus
forward; opposite flags cancel. -/
def moveDir (c : Controls) : ℚ × ℚ :=
  ((if c.right then 1 else 0) - (if c.left then 1 else 0),
    (if c.backward then 1 else 0) - (if c.forward then 1 else 0))

/-- Modelled from the spec: whether the movement direction is non-zero. -/
def moveDirNonZero (c : Controls) : Bool :=
  decide (moveDir c ≠ (0, 0))

/-- Modelled from the spec: the per-frame speed selection of the character
controller (App.js Model useFrame, not among the available sources): runSpeed
when sprint is held and the movement direction is non-zero, else walkSpeed
when a movement flag is set, zero otherwise; the selection is scaled by
dt. -/
def characterSpeed (c : Controls) (dt : ℚ) : ℚ :=
  (if c.shift && moveDirNonZero c then runSpeed
   else if anyMoveFlag c then walkSpeed
   else 0) * dt

/-- Modelled from the spec: the occupancy/visibility fields coupled by the
vehicle enter/exit actions (App.js, not among the available sources). -/
structure WorldState where
  vehicleOccupied : Bool
  characterVisible : Bool
deriving DecidableEq, Repr

/-- Modelled from the spec: on enter the character is hidden and the vehicle
marked occupied, both in the same action. -/
def enterVehicle (w : WorldState) : WorldState :=
  { w with vehicleOccupied := true, characterVisible := false }

/-- Modelled from the spec: on exit the vehicle is freed and the character
shown again, both in the same action. -/
def exitVehicle (w : WorldState) : WorldState :=
  { w with vehicleOccupied := false, characterVisible := true }

/-- Modelled from the spec: one edge-detected interact step — on an interact
edge, exit when occupied, enter when the character is within the interaction
radius of the vehicle, otherwise do nothing. -/
def interactStep (edge near : Bool) (w : WorldState) : WorldState :=
  if edge then
    if w.vehicleOccupied then exitVehicle w
    else if near then enterVehicle w else w
  else w

/-- Modelled from the spec: on foot and visible at session start. -/
def worldInit : WorldState := { vehicleOccupied := false, characterVisible := true }

/-- The world state after a sequence of frames, each carrying an interact edge
flag and a within-interaction-radius flag. -/
def runWorld (steps : List (Bool × Bool)) : WorldState :=
  steps.foldl (fun w st => interactStep st.1 st.2 w) worldInit

/-- Modelled from the spec: the camera follow rate — 5.0 in steady modes, 2.0
during Transitioning* modes. -/
def followRate (m : GameMode) : ℚ := if isTransitioning m then 2 else 5

/-- Modelled from the spec: the clamped interpolation factor
min(1, dt * followRate). -/
def lerpFactor (dt rate : ℚ) : ℚ := min 1 (dt * rate)

/-- Modelled from the spec: the per-frame camera smoothing (App.js
CameraController, not among the available sources):
camera.position += (desired - camera.position) * min(1, dt * followRate). -/
def cameraStep (cam desired : Vec3) (dt : ℚ) (m : GameMode) : Vec3 :=
  Vec3.add cam (Vec3.smul (lerpFactor dt (followRate m)) (Vec3.sub desired cam))

/-- `handleKeyDown` in terms of the key-to-flag mapping: a mapped key sets
its flag to `true`, any other key leaves the record unchanged. -/
lemma handleKeyDown_eq (k : List Char) (c : Controls) :
    handleKeyDown k c = (keyFlagOf k).elim c (fun fl => setFlag fl true c) := by
  by_cases h1 : keyToLower k = ['s', 'h', 'i', 'f', 't']
  · simp [handleKeyDown, keyFlagOf, keyActionMap, h1, setFlag]
  · by_cases h2 : keyToLower k = ['c']
    · simp [handleKeyDown, keyFlagOf, keyActionMap, h1, h2, setFlag]
    · by_cases hw : keyToLower k = ['w']
      · simp [handleKeyDown, keyFlagOf, keyActionMap, h1, h2, hw, setFlag]
      · by_cases hs : keyToLower k = ['s']
        · simp [handleKeyDown, keyFlagOf, keyActionMap, h1, h2, hw, hs, setFlag]
        · by_cases ha : keyToLower k = ['a']
          · simp [handleKeyDown, keyFlagOf, keyActionMap, h1, h2, hw, hs, ha, setFlag]
          · by_cases hd : keyToLower k = ['d']
            · simp [handleKeyDown, keyFlagOf, keyActionMap, h1, h2, hw, hs, ha, hd, setFlag]
            · by_cases he : keyToLower k = ['e']
              · simp [handleKeyDown, keyFlagOf, keyActionMap, h1, h2, hw, hs, ha, hd, he,
                  setFlag]
              · simp [handleKeyDown, keyFlagOf, keyActionMap, h1, h2, hw, hs, ha, hd, he]

/-- `handleKeyUp` in terms of the key-to-flag mapping: a mapped key sets
its flag to `false`, any other key leaves the record unchanged. -/
lemma handleKeyUp_eq (k : List Char) (c : Controls) :
    handleKeyUp k c = (keyFlagOf k).elim c (fun fl => setFlag fl false c) := by
  by_cases h1 : keyToLower k = ['s', 'h', 'i', 'f', 't']
  · simp [handleKeyUp, keyFlagOf, keyActionMap, h1, setFlag]
  · by_cases h2 : keyToLower k = ['c']
    · simp [handleKeyUp, keyFlagOf, keyActionMap, h1, h2, setFlag]
    · by_cases hw : keyToLower k = ['w']
      · simp [handleKeyUp, keyFlagOf, keyActionMap, h1, h2, hw, setFlag]
      · by_cases hs : keyToLower k = ['s']
        · simp [handleKeyUp, keyFlagOf, keyActionMap, h1, h2, hw, hs, setFlag]
        · by_cases ha : keyToLower k = ['a']
          · simp [handleKeyUp, keyFlagOf, keyActionMap, h1, h2, hw, hs, ha, setFlag]
          · by_cases hd : keyToLower k = ['d']
            · simp [handleKeyUp, keyFlagOf, keyActionMap, h1, h2, hw, hs, ha, hd, setFlag]
            · by_cases he : keyToLower k = ['e']
              · simp [handleKeyUp, keyFlagOf, keyActionMap, h1, h2, hw, hs, ha, hd, he,
                  setFlag]
              · simp [handleKeyUp, keyFlagOf, keyActionMap, h1, h2, hw, hs, ha, hd, he]

/-- Updating the same flag twice keeps only the last value. -/
lemma setFlag_setFlag (fl : Flag) (b1 b2 : Bool) (c : Controls) :
    setFlag fl b2 (setFlag fl b1 c) = setFlag fl b2 c := by
  cases fl <;> rfl

/-- Writing the value a flag already holds is the identity. -/
lemma setFlag_getFlag_self (fl : Flag) (c : Controls) :
    setFlag fl (getFlag fl c) c = c := by
  cases fl <;> (cases c; rfl)

/-- Writing one flag leaves every other flag unchanged. -/
lemma getFlag_setFlag_ne (fl fl2 : Flag) (b : Bool) (c : Controls)
    (hne : fl2 ≠ fl) : getFlag fl2 (setFlag fl b c) = getFlag fl2 c := by
  cases fl <;> cases fl2 <;> simp_all [getFlag, setFlag]

/-- Claim C1: the input snapshot record consists of exactly the named boolean
flags (realized in code as forward, backward, left, right, shift, log, e), and
after every sequence of key-down/key-up events every flag of the snapshot has a
defined boolean value — there is never an unknown or missing flag. -/
theorem controls_always_defined (evs : List KeyEvent) (fl : Flag) :
    getFlag fl (runControls evs) = true ∨ getFlag fl (runControls evs) = false := by
  cases h : getFlag fl (runControls evs)
  · exact Or.inr rfl
  · exact Or.inl rfl

/-- Claim C2: for every snapshot and every mapped key, key-down then key-up for
that key yields the original snapshot with the key's flag set to false; when
the flag was false beforehand, the down-then-up round trip is the identity. -/
theorem keydown_keyup_roundtrip (c : Controls) (k : List Char) (fl : Flag)
    (h : keyFlagOf k = some fl) :
    handleKeyUp k (handleKeyDown k c) = setFlag fl false c ∧
      (getFlag fl c = false → handleKeyUp k (handleKeyDown k c) = c) := by
  rw [handleKeyDown_eq, handleKeyUp_eq, h]
  simp only [Option.elim]
  refine ⟨setFlag_setFlag fl true false c, fun hf => ?_⟩
  rw [setFlag_setFlag fl true false c, ← hf, setFlag_getFlag_self]

/-- Witness for `keydown_keyup_roundtrip` at the key `w` and a snapshot with
the `forward` flag not set. -/
theorem keydown_keyup_roundtrip_witness :
    keyFlagOf ['w'] = some Flag.forward ∧
      handleKeyUp ['w'] (handleKeyDown ['w'] initialControls) = initialControls :=
  ⟨by decide,
    (keydown_keyup_roundtrip initialControls ['w'] Flag.forward (by decide)).2 (by decide)⟩

/-- Claim C9: a single key event changes at most the one flag mapped to that
key (w→forward, s→backward, a→left, d→right, e→e, shift→shift, c→log), every
other flag keeping its previous value; an event for an unmapped key leaves the
snapshot entirely unchanged. -/
theorem key_event_changes_at_most_one_flag (k : List Char) (c : Controls) :
    (keyFlagOf k = none → handleKeyDown k c = c ∧ handleKeyUp k c = c) ∧
      (∀ fl fl2 : Flag, keyFlagOf k = some fl → fl2 ≠ fl →
        getFlag fl2 (handleKeyDown k c) = getFlag fl2 c ∧
          getFlag fl2 (handleKeyUp k c) = getFlag fl2 c) := by
  constructor
  · intro h
    rw [handleKeyDown_eq, handleKeyUp_eq, h]
    exact ⟨rfl, rfl⟩
  · intro fl fl2 h hne
    rw [handleKeyDown_eq, handleKeyUp_eq, h]
    exact ⟨getFlag_setFlag_ne fl fl2 true c hne, getFlag_setFlag_ne fl fl2 false c hne⟩

/-- Witness for `key_event_changes_at_most_one_flag`: the unmapped key `z`
leaves the snapshot unchanged, and a `w` key-down leaves the backward flag
unchanged. -/
theorem key_event_changes_at_most_one_flag_witness :
    handleKeyDown ['z'] initialControls = initialControls ∧
      getFlag Flag.backward (handleKeyDown ['w'] initialControls) =
        getFlag Flag.backward initialControls :=
  ⟨((key_event_changes_at_most_one_flag ['z'] initialControls).1 (by decide)).1,
    ((key_event_changes_at_most_one_flag ['w'] initialControls).2 Flag.forward Flag.backward
      (by decide) (by decide)).1⟩

/-- Claim C10: key matching is case-insensitive — both handlers lower-case the
event's key before lookup, so any two key strings with the same lower-casing
(for example W and w, or Shift and SHIFT) produce the identical snapshot
update. -/
theorem key_matching_case_insensitive (k1 k2 : List Char) (c : Controls)
    (h : keyToLower k1 = keyToLower k2) :
    handleKeyDown k1 c = handleKeyDown k2 c ∧ handleKeyUp k1 c = handleKeyUp k2 c := by
  constructor
  · simp only [handleKeyDown, h]
  · simp only [handleKeyUp, h]

/-- Witness for `key_matching_case_insensitive` at the casings `W`/`w` and
`Shift`/`SHIFT`. -/
theorem key_matching_case_insensitive_witness :
    handleKeyDown ['W'] initialControls = handleKeyDown ['w'] initialControls ∧
      handleKeyDown ['S', 'h', 'i', 'f', 't'] initialControls =
        handleKeyDown ['S', 'H', 'I', 'F', 'T'] initialControls :=
  ⟨(key_matching_case_insensitive ['W'] ['w'] initialControls (by decide)).1,
    (key_matching_case_insensitive ['S', 'h', 'i', 'f', 't'] ['S', 'H', 'I', 'F', 'T']
      initialControls (by decide)).1⟩

/-- Accepting a transition always lands in a Transitioning* mode. -/
lemma isTransitioning_transitioningModeFor (t : GameMode) :
    isTransitioning (transitioningModeFor t) = true := by
  cases t <;> rfl

/-- An accepted transition request puts the machine into a Transitioning*
mode. -/
lemma requestTransition_mode (t : GameMode) (s : MachineState)
    (h : isTransitioning s.mode = false) :
    isTransitioning (requestTransition t s).mode = true := by
  unfold requestTransition
  rw [if_neg (by simp [h])]
  exact isTransitioning_transitioningModeFor t

/-- While the machine is transitioning, a whole frame of portal checks leaves
the state untouched. -/
lemma portalFrame_transitioning (portals : List Portal) (pos : Vec3) (s : MachineState)
    (h : isTransitioning s.mode = true) : portalFrame portals pos s = s := by
  induction portals with
  | nil => rfl
  | cons p rest ih =>
    have hp : portalCheck pos s p = s := by
      unfold portalCheck
      rw [if_neg]
      intro hc
      rw [h] at hc
      exact Bool.noConfusion hc.2
    show List.foldl (portalCheck pos) (portalCheck pos s p) rest = s
    rw [hp]
    exact ih

/-- Claim C3: per-frame portal check — when the machine is not already
transitioning, the frame submits a transition request toward the first portal
in registration order whose trigger radius strictly contains the controlled
entity's position, ignoring the rest; when no portal triggers, the frame
changes nothing. -/
theorem portal_frame_first_portal_wins (portals : List Portal) (pos : Vec3)
    (s : MachineState) (h : isTransitioning s.mode = false) :
    (∀ p : Portal, firstTriggeredPortal pos portals = some p →
        portalFrame portals pos s = requestTransition p.targetMode s) ∧
      (firstTriggeredPortal pos portals = none → portalFrame portals pos s = s) := by
  constructor
  · induction portals with
    | nil =>
      intro p hp
      simp [firstTriggeredPortal] at hp
    | cons q rest ih =>
      intro p hp
      by_cases hq : distSq pos q.position < q.triggerRadius * q.triggerRadius
      · rw [firstTriggeredPortal, List.find?_cons_of_pos _ (by simpa using hq)] at hp
        obtain rfl : q = p := by injection hp
        have h1 : portalCheck pos s q = requestTransition q.targetMode s := by
          unfold portalCheck
          rw [if_pos ⟨hq, h⟩]
        show List.foldl (portalCheck pos) (portalCheck pos s q) rest = _
        rw [h1]
        exact portalFrame_transitioning rest pos _ (requestTransition_mode q.targetMode s h)
      · rw [firstTriggeredPortal, List.find?_cons_of_neg _ (by simpa using hq)] at hp
        have h1 : portalCheck pos s q = s := by
          unfold portalCheck
          rw [if_neg]
          intro hc
          exact hq hc.1
        show List.foldl (portalCheck pos) (portalCheck pos s q) rest = _
        rw [h1]
        exact ih p hp
  · induction portals with
    | nil => intro _; rfl
    | cons q rest ih =>
      intro hnone
      by_cases hq : distSq pos q.position < q.triggerRadius * q.triggerRadius
      · rw [firstTriggeredPortal, List.find?_cons_of_pos _ (by simpa using hq)] at hnone
        cases hnone
      · rw [firstTriggeredPortal, List.find?_cons_of_neg _ (by simpa using hq)] at hnone
        have h1 : portalCheck pos s q = s := by
          unfold portalCheck
          rw [if_neg]
          intro hc
          exact hq hc.1
        show List.foldl (portalCheck pos) (portalCheck pos s q) rest = s
        rw [h1]
        exact ih hnone

/-- Witness for `portal_frame_first_portal_wins`: a character 1 unit away from
a radius-2 portal toward level 2, machine steady in level 1. -/
theorem portal_frame_first_portal_wins_witness :
    portalFrame [⟨⟨10, 0, 0⟩, 2, GameMode.playing_level2⟩] ⟨9, 0, 0⟩
        ⟨GameMode.playing_level1, none, 0⟩ =
      requestTransition GameMode.playing_level2 ⟨GameMode.playing_level1, none, 0⟩ :=
  (portal_frame_first_portal_wins [⟨⟨10, 0, 0⟩, 2, GameMode.playing_level2⟩] ⟨9, 0, 0⟩
      ⟨GameMode.playing_level1, none, 0⟩ (by decide)).1
    ⟨⟨10, 0, 0⟩, 2, GameMode.playing_level2⟩ (by
      rw [firstTriggeredPortal]
      refine List.find?_cons_of_pos _ ?_
      rw [decide_eq_true_eq]
      norm_num [distSq])

/-- Claim C4: while the machine is in any Transitioning* mode,
`requestTransition` with any target is a no-op, not an error — the in-flight
transition's target mode and remaining timer are unchanged and the late
request is discarded rather than queued. -/
theorem requestTransition_noop_while_transitioning (t : GameMode) (s : MachineState)
    (h : isTransitioning s.mode = true) :
    requestTransition t s = s ∧
      (requestTransition t s).transTarget = s.transTarget ∧
      (requestTransition t s).transTimer = s.transTimer := by
  have heq : requestTransition t s = s := by
    unfold requestTransition
    rw [if_pos h]
  exact ⟨heq, by rw [heq], by rw [heq]⟩

/-- Witness for `requestTransition_noop_while_transitioning`: a late request
toward level 3 while a transition toward level 2 is in flight. -/
theorem requestTransition_noop_while_transitioning_witness :
    requestTransition GameMode.playing_level3
        ⟨GameMode.entering_portal, some GameMode.playing_level2, 1⟩ =
      ⟨GameMode.entering_portal, some GameMode.playing_level2, 1⟩ :=
  (requestTransition_noop_while_transitioning GameMode.playing_level3
      ⟨GameMode.entering_portal, some GameMode.playing_level2, 1⟩ (by decide)).1

/-- The clamp lands in the interval whenever the interval is nonempty. -/
lemma clampQ_mem (lo hi x : ℚ) (h : lo ≤ hi) :
    lo ≤ clampQ lo hi x ∧ clampQ lo hi x ≤ hi := by
  unfold clampQ
  exact ⟨le_max_left lo _, max_le h (min_le_left hi x)⟩

/-- A rate-limited approach stays inside any interval containing both the
current value and the target. -/
lemma moveToward_mem (current target step lo hi : ℚ) (hstep : 0 ≤ step)
    (hc1 : lo ≤ current) (hc2 : current ≤ hi) (ht1 : lo ≤ target) (ht2 : target ≤ hi) :
    lo ≤ moveToward current target step ∧ moveToward current target step ≤ hi := by
  unfold moveToward clampQ
  constructor
  · exact le_trans (le_min (by linarith) ht1) (le_max_right _ _)
  · exact max_le (by linarith) (le_trans (min_le_right _ _) ht2)

/-- The flag-derived speed target lies between -speedMax/2 and speedMax. -/
lemma speedTarget_mem (c : Controls) :
    -(speedMax / 2) ≤ speedTarget c ∧ speedTarget c ≤ speedMax := by
  unfold speedTarget speedMax
  split_ifs <;> norm_num

/-- One vehicle frame with nonnegative elapsed time preserves the speed and
steering bounds. -/
lemma vehicleDriveStep_inv (c : Controls) (dt : ℚ) (v : VehicleDrive)
    (hdt : 0 ≤ dt) (hv : VehicleDriveInv v) :
    VehicleDriveInv (vehicleDriveStep c dt v) := by
  obtain ⟨h1, h2, h3, h4⟩ := hv
  obtain ⟨ht1, ht2⟩ := speedTarget_mem c
  have hrate : 0 ≤ (if c.forward || c.backward then accelRate else frictionRate) * dt := by
    apply mul_nonneg _ hdt
    unfold accelRate frictionRate
    split_ifs <;> norm_num
  have hspeed := moveToward_mem v.currentSpeed (speedTarget c)
    ((if c.forward || c.backward then accelRate else frictionRate) * dt)
    (-(speedMax / 2)) speedMax hrate h1 h2 ht1 ht2
  have hsteer := clampQ_mem (-steeringMax) steeringMax
    (moveToward v.steeringAngle (steerTarget c) (steeringRate * dt))
    (by unfold steeringMax; norm_num)
  exact ⟨hspeed.1, hspeed.2, hsteer.1, hsteer.2⟩

/-- The vehicle bounds hold after folding any frame sequence with nonnegative
elapsed times from a state that satisfies them. -/
lemma runVehicle_fold_inv (frames : List (Controls × ℚ)) (v : VehicleDrive)
    (hdt : ∀ f ∈ frames, 0 ≤ f.2) (hv : VehicleDriveInv v) :
    VehicleDriveInv (frames.foldl (fun w f => vehicleDriveStep f.1 f.2 w) v) := by
  induction frames generalizing v with
  | nil => exact hv
  | cons f rest ih =>
    exact ih _ (fun g hg => hdt g (List.mem_cons_of_mem f hg))
      (vehicleDriveStep_inv f.1 f.2 v (hdt f (List.mem_cons_self f rest)) hv)

/-- Counterexample to claim C5 as stated: one frame of backward input from
rest drives currentSpeed below zero (the controller reverses toward
-speedMax/2), so 0 ≤ currentSpeed does not hold at every frame. -/
theorem vehicle_speed_nonneg_counterexample :
    ¬ (0 ≤ (runVehicle [(backwardInput, 1)]).currentSpeed) := by
  norm_num [runVehicle, vehicleInit, vehicleDriveStep, moveToward, clampQ, speedTarget,
    speedMax, accelRate, backwardInput, initialControls, min_def, max_def]

/-- Claim C5 (amended): after any sequence of per-frame inputs and
nonnegative elapsed times, the vehicle state satisfies
-speedMax/2 ≤ currentSpeed ≤ speedMax — hence |currentSpeed| ≤ speedMax —
and |steeringAngle| ≤ steeringMax; these bounds hold at every frame. -/
theorem vehicle_bounds_invariant (frames : List (Controls × ℚ))
    (hdt : ∀ f ∈ frames, 0 ≤ f.2) :
    -(speedMax / 2) ≤ (runVehicle frames).currentSpeed ∧
      (runVehicle frames).currentSpeed ≤ speedMax ∧
      |(runVehicle frames).currentSpeed| ≤ speedMax ∧
      |(runVehicle frames).steeringAngle| ≤ steeringMax := by
  have hinit : VehicleDriveInv vehicleInit := by
    unfold VehicleDriveInv vehicleInit speedMax steeringMax
    norm_num
  obtain ⟨h1, h2, h3, h4⟩ := runVehicle_fold_inv frames vehicleInit hdt hinit
  have hhalf : -speedMax ≤ -(speedMax / 2) := by unfold speedMax; norm_num
  exact ⟨h1, h2, abs_le.2 ⟨le_trans hhalf h1, h2⟩, abs_le.2 ⟨h3, h4⟩⟩

/-- Witness for `vehicle_bounds_invariant` on a one-frame backward run. -/
theorem vehicle_bounds_invariant_witness :
    -(speedMax / 2) ≤ (runVehicle [(backwardInput, 1)]).currentSpeed ∧
      (runVehicle [(backwardInput, 1)]).currentSpeed ≤ speedMax ∧
      |(runVehicle [(backwardInput, 1)]).currentSpeed| ≤ speedMax ∧
      |(runVehicle [(backwardInput, 1)]).steeringAngle| ≤ steeringMax :=
  vehicle_bounds_invariant [(backwardInput, 1)] (by
    intro f hf
    rw [List.mem_singleton] at hf
    rw [hf]
    norm_num)

/-- With no movement flag set, the movement direction is zero. -/
lemma moveDirNonZero_eq_false (c : Controls) (h : anyMoveFlag c = false) :
    moveDirNonZero c = false := by
  have hflags : c.forward = false ∧ c.backward = false ∧ c.left = false ∧ c.right = false := by
    unfold anyMoveFlag at h
    simp only [Bool.or_eq_false_iff] at h
    exact ⟨h.1.1.1, h.1.1.2, h.1.2, h.2⟩
  obtain ⟨hf, hb, hl, hr⟩ := hflags
  simp [moveDirNonZero, moveDir, hf, hb, hl, hr]

/-- Claim C6: the per-frame character speed is exactly one of
{0, walkSpeed, runSpeed} scaled by dt — runSpeed when sprint is held with a
non-zero movement direction, walkSpeed when movement flags are set without
sprint, zero when no movement flag is set — and for nonnegative dt it never
exceeds runSpeed * dt. -/
theorem character_speed_selection (c : Controls) (dt : ℚ) :
    (characterSpeed c dt = 0 ∨ characterSpeed c dt = walkSpeed * dt ∨
        characterSpeed c dt = runSpeed * dt) ∧
      (c.shift = true → moveDirNonZero c = true → characterSpeed c dt = runSpeed * dt) ∧
      (anyMoveFlag c = true → c.shift = false → characterSpeed c dt = walkSpeed * dt) ∧
      (anyMoveFlag c = false → characterSpeed c dt = 0) ∧
      (0 ≤ dt → characterSpeed c dt ≤ runSpeed * dt) := by
  unfold characterSpeed
  by_cases h1 : (c.shift && moveDirNonZero c) = true
  · rw [if_pos h1]
    have h1p := h1
    rw [Bool.and_eq_true] at h1p
    obtain ⟨hshift, hnz⟩ := h1p
    refine ⟨Or.inr (Or.inr rfl), fun _ _ => rfl, ?_, ?_, fun _ => le_refl _⟩
    · intro _ hs
      rw [hs] at hshift
      exact Bool.noConfusion hshift
    · intro hm
      rw [moveDirNonZero_eq_false c hm] at hnz
      exact Bool.noConfusion hnz
  · rw [if_neg h1]
    by_cases h2 : anyMoveFlag c = true
    · rw [if_pos h2]
      refine ⟨Or.inr (Or.inl rfl), ?_, fun _ _ => rfl, ?_, ?_⟩
      · intro hs hnz
        rw [hs, hnz] at h1
        exact absurd rfl h1
      · intro hm
        rw [hm] at h2
        exact Bool.noConfusion h2
      · intro hdt
        have : walkSpeed ≤ runSpeed := by unfold walkSpeed runSpeed; norm_num
        exact mul_le_mul_of_nonneg_right this hdt
    · rw [if_neg h2]
      have h2f : anyMoveFlag c = false := by
        cases hh : anyMoveFlag c
        · rfl
        · exact absurd hh h2
      refine ⟨Or.inl (zero_mul dt), ?_, ?_, fun _ => zero_mul dt, ?_⟩
      · intro hs hnz
        rw [hs, hnz] at h1
        exact absurd rfl h1
      · intro hm
        rw [hm] at h2
        exact absurd rfl h2
      · intro hdt
        rw [zero_mul]
        apply mul_nonneg _ hdt
        unfold runSpeed
        norm_num

/-- Witness for `character_speed_selection`: sprinting forward for one time
unit runs at runSpeed, and the speed bound holds there. -/
theorem character_speed_selection_witness :
    characterSpeed { initialControls with forward := true, shift := true } 1 =
        runSpeed * 1 ∧
      characterSpeed { initialControls with forward := true, shift := true } 1 ≤
        runSpeed * 1 :=
  ⟨(character_speed_selection { initialControls with forward := true, shift := true } 1).2.1
      rfl (by
        rw [moveDirNonZero, decide_eq_true_eq]
        intro hzero
        have := congrArg Prod.snd hzero
        norm_num [moveDir, initialControls] at this),
    (character_speed_selection { initialControls with forward := true, shift := true } 1).2.2.2.2
      (by norm_num)⟩

/-- An edge-detected interact step preserves the visible-iff-not-occupied
coupling. -/
lemma interactStep_inv (edge near : Bool) (w : WorldState)
    (h : w.characterVisible = !w.vehicleOccupied) :
    (interactStep edge near w).characterVisible =
      !(interactStep edge near w).vehicleOccupied := by
  unfold interactStep enterVehicle exitVehicle
  split_ifs <;> simp_all

/-- The coupling holds after folding any step sequence from a state that
satisfies it. -/
lemma runWorld_fold_inv (steps : List (Bool × Bool)) (w : WorldState)
    (h : w.characterVisible = !w.vehicleOccupied) :
    (steps.foldl (fun u st => interactStep st.1 st.2 u) w).characterVisible =
      !(steps.foldl (fun u st => interactStep st.1 st.2 u) w).vehicleOccupied := by
  induction steps generalizing w with
  | nil => exact h
  | cons st rest ih => exact ih _ (interactStep_inv st.1 st.2 w h)

/-- Claim C7: mutual exclusion between character and vehicle — at every frame
the character is visible exactly when the vehicle is not occupied (occupied
implies invisible, unoccupied implies visible), and the enter and exit
actions toggle both fields together, so every operation preserves the
invariant. -/
theorem vehicle_character_mutual_exclusion (steps : List (Bool × Bool)) (w : WorldState) :
    ((runWorld steps).characterVisible = !(runWorld steps).vehicleOccupied) ∧
      (enterVehicle w).characterVisible = !(enterVehicle w).vehicleOccupied ∧
      (exitVehicle w).characterVisible = !(exitVehicle w).vehicleOccupied :=
  ⟨runWorld_fold_inv steps worldInit rfl, rfl, rfl⟩

/-- The camera follow rate is positive in every mode. -/
lemma followRate_pos (m : GameMode) : 0 < followRate m := by
  unfold followRate
  split_ifs <;> norm_num

/-- A convex interpolation from `a` toward `b` stays between them. -/
lemma lerp_between (a b t : ℚ) (h0 : 0 ≤ t) (h1 : t ≤ 1) :
    min a b ≤ a + t * (b - a) ∧ a + t * (b - a) ≤ max a b := by
  rcases le_total a b with hab | hab
  · rw [min_eq_left hab, max_eq_right hab]
    constructor <;> nlinarith
  · rw [min_eq_right hab, max_eq_left hab]
    constructor <;> nlinarith

/-- Claim C8: per-frame camera update — the interpolation factor
min(1, dt * followRate) lies in [0, 1] for nonnegative dt, so each coordinate
of the new camera position stays between the old position and the desired
position (no teleport or overshoot), with followRate 2 during Transitioning*
modes and 5 in steady modes. -/
theorem camera_no_overshoot (cam desired : Vec3) (dt : ℚ) (m : GameMode)
    (hdt : 0 < dt) :
    (0 ≤ lerpFactor dt (followRate m) ∧ lerpFactor dt (followRate m) ≤ 1) ∧
      (min cam.x desired.x ≤ (cameraStep cam desired dt m).x ∧
        (cameraStep cam desired dt m).x ≤ max cam.x desired.x) ∧
      (min cam.y desired.y ≤ (cameraStep cam desired dt m).y ∧
        (cameraStep cam desired dt m).y ≤ max cam.y desired.y) ∧
      (min cam.z desired.z ≤ (cameraStep cam desired dt m).z ∧
        (cameraStep cam desired dt m).z ≤ max cam.z desired.z) ∧
      (isTransitioning m = true → followRate m = 2) ∧
      (isTransitioning m = false → followRate m = 5) := by
  have hfac0 : 0 ≤ lerpFactor dt (followRate m) := by
    unfold lerpFactor
    exact le_min (by norm_num) (le_of_lt (mul_pos hdt (followRate_pos m)))
  have hfac1 : lerpFactor dt (followRate m) ≤ 1 := min_le_left _ _
  have hx : (cameraStep cam desired dt m).x =
      cam.x + lerpFactor dt (followRate m) * (desired.x - cam.x) := rfl
  have hy : (cameraStep cam desired dt m).y =
      cam.y + lerpFactor dt (followRate m) * (desired.y - cam.y) := rfl
  have hz : (cameraStep cam desired dt m).z =
      cam.z + lerpFactor dt (followRate m) * (desired.z - cam.z) := rfl
  refine ⟨⟨hfac0, hfac1⟩, ?_, ?_, ?_, ?_, ?_⟩
  · rw [hx]
    exact lerp_between cam.x desired.x _ hfac0 hfac1
  · rw [hy]
    exact lerp_between cam.y desired.y _ hfac0 hfac1
  · rw [hz]
    exact lerp_between cam.z desired.z _ hfac0 hfac1
  · intro ht
    unfold followRate
    rw [ht]
    rfl
  · intro ht
    unfold followRate
    rw [ht]
    rfl

/-- Witness for `camera_no_overshoot` at a concrete camera pose, target, time
step and steady mode. -/
theorem camera_no_overshoot_witness :
    min (0 : ℚ) 1 ≤ (cameraStep ⟨0, 0, 0⟩ ⟨1, 2, 3⟩ 1 GameMode.playing_level1).x ∧
      (cameraStep ⟨0, 0, 0⟩ ⟨1, 2, 3⟩ 1 GameMode.playing_level1).x ≤ max (0 : ℚ) 1 :=
  (camera_no_overshoot ⟨0, 0, 0⟩ ⟨1, 2, 3⟩ 1 GameMode.playing_level1 (by norm_num)).2.1

end Portfolio
